import Mathlib

/-!
Shallow embedding of the CPU/memory core of `src/hdremu.py` (classes
`N64Memory` and `MIPSR4300i`): address translation, bounds-checked
big-endian word read/write, instruction decode/dispatch, and the
step driver.  Machine integers are modelled as `Nat` (Python integers
are unbounded; every mask in the source is reproduced verbatim), and
the subtraction branch, which can go negative in Python before the
64-bit mask, is modelled through `Int` with Python's nonnegative `%`.
-/

namespace Emu64

/-- Length of the mutable random-access arena `rdram` (8 MiB), from
`N64Memory.__init__`. -/
def RDRAM_LEN : Nat := 8 * 1024 * 1024

/-- Length of the program-image arena `rom` (64 MiB), from
`N64Memory.__init__`. -/
def ROM_LEN : Nat := 64 * 1024 * 1024

/-- The memory unit: `rdram` and `rom` are byte stores, modelled as
functions from offset to byte value (a fresh `bytearray` is all zeros;
`bytearray` keeps every cell below 256, which theorems that need it
take as a hypothesis). -/
structure N64Memory where
  rdram : Nat → Nat
  rom : Nat → Nat

/-- Embeds `N64Memory.virtual_to_physical`: mask the address to 32 bits,
map the two KSEG windows through the physical mask, identity elsewhere. -/
def virtual_to_physical (address : Nat) : Nat :=
  let a := address &&& 0xFFFFFFFF
  if (0x80000000 ≤ a ∧ a ≤ 0x9FFFFFFF) ∨ (0xA0000000 ≤ a ∧ a ≤ 0xBFFFFFFF) then
    a &&& 0x1FFFFFFF
  else a

/-- Embeds `N64Memory.read32`: translate, then if `p + 3 < len(rdram)`
return the four bytes at `p` combined big-endian, else `0`. -/
def read32 (m : N64Memory) (address : Nat) : Nat :=
  let p := virtual_to_physical address
  if p + 3 < RDRAM_LEN then
    m.rdram p * 2 ^ 24 + m.rdram (p + 1) * 2 ^ 16 + m.rdram (p + 2) * 2 ^ 8 + m.rdram (p + 3)
  else 0

/-- Embeds `N64Memory.write32`: translate, then if `p + 3 < len(rdram)`
store the low 32 bits of `value` as four big-endian bytes (this is
`struct.pack` of `value & 0xFFFFFFFF`), else leave memory untouched. -/
def write32 (m : N64Memory) (address value : Nat) : N64Memory :=
  let p := virtual_to_physical address
  if p + 3 < RDRAM_LEN then
    let w := value &&& 0xFFFFFFFF
    { m with rdram := fun i =>
        if i = p then w / 2 ^ 24
        else if i = p + 1 then w / 2 ^ 16 % 256
        else if i = p + 2 then w / 2 ^ 8 % 256
        else if i = p + 3 then w % 256
        else m.rdram i }
  else m

/-- The CPU context of `MIPSR4300i`: 32 general registers as a list
(length 32 in every reachable state), PC pair, HI/LO, the owned memory
unit and the cycle counter. -/
structure MIPSR4300i where
  gpr : List Nat
  pc : Nat
  next_pc : Nat
  hi : Nat
  lo : Nat
  memory : N64Memory
  cycles : Nat

/-- Python read `self.gpr[i]` on an in-range index (all indices the core
produces are masked with `0x1F`, hence below the list length 32). -/
def g (c : MIPSR4300i) (i : Nat) : Nat := c.gpr.getD i 0

/-- Python write `self.gpr[i] = v` on an in-range index. -/
def setg (c : MIPSR4300i) (i v : Nat) : MIPSR4300i :=
  { c with gpr := c.gpr.set i v }

/-- Embeds `MIPSR4300i.__init__`: boot vector `0xA4000040`, `next_pc`
one word later, everything else zeroed. -/
def initCPU (mem : N64Memory) : MIPSR4300i :=
  { gpr := List.replicate 32 0
    pc := 0xA4000040
    next_pc := 0xA4000040 + 4
    hi := 0
    lo := 0
    memory := mem
    cycles := 0 }

/-- Embeds `MIPSR4300i.reset`: same state as construction, keeping the
memory reference. -/
def reset (c : MIPSR4300i) : MIPSR4300i :=
  { c with gpr := List.replicate 32 0
           pc := 0xA4000040
           next_pc := 0xA4000040 + 4
           hi := 0
           lo := 0
           cycles := 0 }

/-- Embeds `MIPSR4300i.fetch`: `read32` at the current PC.  The
`try/except` in the source is dead protection — `read32` is total — so
the `return 0` arm is unreachable and the embedding is the plain call. -/
def fetch (c : MIPSR4300i) : Nat := read32 c.memory c.pc

/-- Python's `(a - b) & 0xFFFFFFFFFFFFFFFF` where `a - b` may be
negative: two's-complement masking of an arbitrary integer, i.e. the
nonnegative representative of `a - b` modulo `2 ^ 64`. -/
def sub64 (a b : Nat) : Nat := (((a : Int) - (b : Int)) % (2 ^ 64 : Int)).toNat

/-- Embeds `MIPSR4300i._special` (secondary dispatch on the function
code).  Branch order and the read/write order inside JALR (`gpr[rd]`
written before `gpr[rs]` is read) follow the source line by line. -/
def special (c : MIPSR4300i) (rs rt rd sh fn : Nat) : MIPSR4300i :=
  if fn = 0x00 then setg c rd ((g c rt <<< sh) &&& 0xFFFFFFFFFFFFFFFF)
  else if fn = 0x02 then setg c rd ((g c rt >>> sh) &&& 0xFFFFFFFFFFFFFFFF)
  else if fn = 0x08 then { c with next_pc := g c rs }
  else if fn = 0x09 then
    let c1 := setg c rd (c.pc + 8)
    { c1 with next_pc := g c1 rs }
  else if fn = 0x12 then setg c rd c.lo
  else if fn = 0x18 then
    let r := g c rs * g c rt
    { c with lo := r &&& 0xFFFFFFFF, hi := (r >>> 32) &&& 0xFFFFFFFF }
  else if fn = 0x20 ∨ fn = 0x21 then setg c rd ((g c rs + g c rt) &&& 0xFFFFFFFFFFFFFFFF)
  else if fn = 0x22 ∨ fn = 0x23 then setg c rd (sub64 (g c rs) (g c rt))
  else if fn = 0x24 then setg c rd (g c rs &&& g c rt)
  else if fn = 0x25 then setg c rd (g c rs ||| g c rt)
  else c

/-- Embeds `MIPSR4300i.decode_execute`: field extraction, the zero
write to register 0 before and after dispatch, the primary-opcode
`elif` chain, and the cycle increment.  `imm_se` reproduces Python's
`imm | 0xFFFFFFFFFFFF0000 if imm & 0x8000 else imm`, a positive big
integer in Python and hence a plain `Nat` here. -/
def decode_execute (c0 : MIPSR4300i) (ins : Nat) : MIPSR4300i :=
  let op := (ins >>> 26) &&& 0x3F
  let rs := (ins >>> 21) &&& 0x1F
  let rt := (ins >>> 16) &&& 0x1F
  let rd := (ins >>> 11) &&& 0x1F
  let sh := (ins >>> 6) &&& 0x1F
  let fn := ins &&& 0x3F
  let imm := ins &&& 0xFFFF
  let tgt := ins &&& 0x3FFFFFF
  let imm_se := if imm &&& 0x8000 ≠ 0 then imm ||| 0xFFFFFFFFFFFF0000 else imm
  let c := setg c0 0 0
  let c :=
    if op = 0x00 then special c rs rt rd sh fn
    else if op = 0x02 then { c with next_pc := (c.pc &&& 0xF0000000) ||| (tgt <<< 2) }
    else if op = 0x03 then
      let c1 := setg c 31 (c.pc + 8)
      { c1 with next_pc := (c1.pc &&& 0xF0000000) ||| (tgt <<< 2) }
    else if op = 0x04 ∧ g c rs = g c rt then { c with next_pc := c.pc + 4 + (imm_se <<< 2) }
    else if op = 0x05 ∧ g c rs ≠ g c rt then { c with next_pc := c.pc + 4 + (imm_se <<< 2) }
    else if op = 0x08 ∨ op = 0x09 then setg c rt ((g c rs + imm_se) &&& 0xFFFFFFFFFFFFFFFF)
    else if op = 0x0C then setg c rt (g c rs &&& imm)
    else if op = 0x0D then setg c rt (g c rs ||| imm)
    else if op = 0x0F then setg c rt ((imm <<< 16) &&& 0xFFFFFFFFFFFFFFFF)
    else if op = 0x23 then setg c rt (read32 c.memory (g c rs + imm_se))
    else if op = 0x2B then { c with memory := write32 c.memory (g c rs + imm_se) (g c rt) }
    else c
  let c := setg c 0 0
  { c with cycles := c.cycles + 1 }

/-- Embeds `MIPSR4300i.step`: fetch, execute, then advance the PC pair
(`pc = next_pc; next_pc = pc + 4` with the freshly assigned `pc`). -/
def step (c : MIPSR4300i) : MIPSR4300i :=
  let c1 := decode_execute c (fetch c)
  { c1 with pc := c1.next_pc, next_pc := c1.next_pc + 4 }

/-- An all-zero memory image, as built by `N64Memory.__init__`. -/
def mem0 : N64Memory := { rdram := fun _ => 0, rom := fun _ => 0 }

/-- A freshly constructed CPU over the all-zero memory. -/
def cpu0 : MIPSR4300i := initCPU mem0

/-- A fresh CPU with `gpr[1] = 100` and `gpr[2] = 200`, the operand
state of the harness's MULT test. -/
def cpuMult : MIPSR4300i := setg (setg cpu0 1 100) 2 200

/-- Python list read `l[i]` made fallible: `none` models the
`IndexError` CPython would raise on an out-of-range index. -/
def getE (l : List Nat) (i : Nat) : Option Nat := l[i]?

/-- Python list write `l[i] = v` made fallible: `none` models the
`IndexError` on an out-of-range index. -/
def setE (l : List Nat) (i v : Nat) : Option (List Nat) :=
  if i < l.length then some (l.set i v) else none

/-- The primary opcodes handled by `decode_execute`'s `elif` chain. -/
def knownOps : List Nat :=
  [0x00, 0x02, 0x03, 0x04, 0x05, 0x08, 0x09, 0x0C, 0x0D, 0x0F, 0x23, 0x2B]

/-- The secondary function codes handled by `_special`'s `elif` chain. -/
def knownFns : List Nat :=
  [0x00, 0x02, 0x08, 0x09, 0x12, 0x18, 0x20, 0x21, 0x22, 0x23, 0x24, 0x25]

/-- `_special` with every register-file access routed through the
fallible accessors, so that any index error CPython could raise shows
up as `none` instead of being silently absorbed. -/
def specialE (c : MIPSR4300i) (rs rt rd sh fn : Nat) : Option MIPSR4300i :=
  if fn = 0x00 then do
    let a ← getE c.gpr rt
    let l ← setE c.gpr rd ((a <<< sh) &&& 0xFFFFFFFFFFFFFFFF)
    some { c with gpr := l }
  else if fn = 0x02 then do
    let a ← getE c.gpr rt
    let l ← setE c.gpr rd ((a >>> sh) &&& 0xFFFFFFFFFFFFFFFF)
    some { c with gpr := l }
  else if fn = 0x08 then do
    let a ← getE c.gpr rs
    some { c with next_pc := a }
  else if fn = 0x09 then do
    let l ← setE c.gpr rd (c.pc + 8)
    let a ← getE l rs
    some { c with gpr := l, next_pc := a }
  else if fn = 0x12 then do
    let l ← setE c.gpr rd c.lo
    some { c with gpr := l }
  else if fn = 0x18 then do
    let a ← getE c.gpr rs
    let b ← getE c.gpr rt
    some { c with lo := (a * b) &&& 0xFFFFFFFF, hi := ((a * b) >>> 32) &&& 0xFFFFFFFF }
  else if fn = 0x20 ∨ fn = 0x21 then do
    let a ← getE c.gpr rs
    let b ← getE c.gpr rt
    let l ← setE c.gpr rd ((a + b) &&& 0xFFFFFFFFFFFFFFFF)
    some { c with gpr := l }
  else if fn = 0x22 ∨ fn = 0x23 then do
    let a ← getE c.gpr rs
    let b ← getE c.gpr rt
    let l ← setE c.gpr rd (sub64 a b)
    some { c with gpr := l }
  else if fn = 0x24 then do
    let a ← getE c.gpr rs
    let b ← getE c.gpr rt
    let l ← setE c.gpr rd (a &&& b)
    some { c with gpr := l }
  else if fn = 0x25 then do
    let a ← getE c.gpr rs
    let b ← getE c.gpr rt
    let l ← setE c.gpr rd (a ||| b)
    some { c with gpr := l }
  else some c

/-- `decode_execute` with fallible register-file accesses.  The branch
conditions of BEQ/BNE read the register file while being evaluated, as
in Python, and when the branch test fails every later `elif` arm of
the chain is also false (its opcode test cannot match), so the chain
collapses to the unchanged state. -/
def decode_executeE (c0 : MIPSR4300i) (ins : Nat) : Option MIPSR4300i := do
  let op := (ins >>> 26) &&& 0x3F
  let rs := (ins >>> 21) &&& 0x1F
  let rt := (ins >>> 16) &&& 0x1F
  let rd := (ins >>> 11) &&& 0x1F
  let sh := (ins >>> 6) &&& 0x1F
  let fn := ins &&& 0x3F
  let imm := ins &&& 0xFFFF
  let tgt := ins &&& 0x3FFFFFF
  let imm_se := if imm &&& 0x8000 ≠ 0 then imm ||| 0xFFFFFFFFFFFF0000 else imm
  let l0 ← setE c0.gpr 0 0
  let c := { c0 with gpr := l0 }
  let c ←
    if op = 0x00 then specialE c rs rt rd sh fn
    else if op = 0x02 then
      some { c with next_pc := (c.pc &&& 0xF0000000) ||| (tgt <<< 2) }
    else if op = 0x03 then do
      let l ← setE c.gpr 31 (c.pc + 8)
      some { c with gpr := l, next_pc := (c.pc &&& 0xF0000000) ||| (tgt <<< 2) }
    else if op = 0x04 then do
      let a ← getE c.gpr rs
      let b ← getE c.gpr rt
      some (if a = b then { c with next_pc := c.pc + 4 + (imm_se <<< 2) } else c)
    else if op = 0x05 then do
      let a ← getE c.gpr rs
      let b ← getE c.gpr rt
      some (if a ≠ b then { c with next_pc := c.pc + 4 + (imm_se <<< 2) } else c)
    else if op = 0x08 ∨ op = 0x09 then do
      let a ← getE c.gpr rs
      let l ← setE c.gpr rt ((a + imm_se) &&& 0xFFFFFFFFFFFFFFFF)
      some { c with gpr := l }
    else if op = 0x0C then do
      let a ← getE c.gpr rs
      let l ← setE c.gpr rt (a &&& imm)
      some { c with gpr := l }
    else if op = 0x0D then do
      let a ← getE c.gpr rs
      let l ← setE c.gpr rt (a ||| imm)
      some { c with gpr := l }
    else if op = 0x0F then do
      let l ← setE c.gpr rt ((imm <<< 16) &&& 0xFFFFFFFFFFFFFFFF)
      some { c with gpr := l }
    else if op = 0x23 then do
      let a ← getE c.gpr rs
      let l ← setE c.gpr rt (read32 c.memory (a + imm_se))
      some { c with gpr := l }
    else if op = 0x2B then do
      let a ← getE c.gpr rs
      let b ← getE c.gpr rt
      some { c with memory := write32 c.memory (a + imm_se) b }
    else some c
  let l ← setE c.gpr 0 0
  some { c with gpr := l, cycles := c.cycles + 1 }

/-- `step` with the fallible execution core: fetch (total — `read32`
never fails, so the source's `try/except` arm is dead), execute, then
advance the PC pair. -/
def stepE (c : MIPSR4300i) : Option MIPSR4300i := do
  let c1 ← decode_executeE c (fetch c)
  some { c1 with pc := c1.next_pc, next_pc := c1.next_pc + 4 }

lemma mask32 (x : Nat) : x &&& 0xFFFFFFFF = x % 2 ^ 32 := by
  have h := Nat.and_pow_two_sub_one_eq_mod x 32
  norm_num at h ⊢
  exact h

lemma mask64 (x : Nat) : x &&& 0xFFFFFFFFFFFFFFFF = x % 2 ^ 64 := by
  have h := Nat.and_pow_two_sub_one_eq_mod x 64
  norm_num at h ⊢
  exact h

lemma getD_set_self (l : List Nat) (i v : Nat) (h : i < l.length) :
    (l.set i v).getD i 0 = v := by
  simp [List.getD_eq_getElem?_getD, List.getElem?_set_self h]

lemma getD_set_zero (l : List Nat) : (l.set 0 0).getD 0 0 = 0 := by
  cases l <;> simp

lemma set_zero_id (l : List Nat) (h : l.getD 0 0 = 0) : l.set 0 0 = l := by
  cases l with
  | nil => rfl
  | cons a t =>
    simp only [List.getD_cons_zero] at h
    simp [h]

lemma setg_zero_id (c : MIPSR4300i) (h : g c 0 = 0) : setg c 0 0 = c := by
  unfold setg
  rw [set_zero_id _ h]

lemma g_setg_self (c : MIPSR4300i) (i v : Nat) (h : i < c.gpr.length) :
    g (setg c i v) i = v :=
  getD_set_self _ _ _ h

/-- C2: for every CPU state and every 32-bit instruction word, register
0 reads as 0 immediately after `decode_execute` returns, for all
instruction kinds (including those that name register 0 as their
destination): the engine writes `gpr[0] = 0` both before and after the
dispatch chain, so the final read is always 0. -/
theorem C2_register_zero (c : MIPSR4300i) (ins : Nat) :
    g (decode_execute c ins) 0 = 0 := by
  simp only [decode_execute, g, setg]
  exact getD_set_zero _

/-- C10: after construction, after `reset`, and after every `step` —
whatever instruction executed, branches and jumps included — the
invariant `next_pc = pc + 4` holds, because `step` unconditionally
rewrites the pair as `pc := next_pc; next_pc := pc + 4`; hence a
control transfer written into `next_pc` takes effect in the PC advance
of the very step that executed it and no pending branch state survives
into the next step. -/
theorem C10_next_pc_invariant :
    (∀ mem, (initCPU mem).next_pc = (initCPU mem).pc + 4) ∧
    (∀ c, (reset c).next_pc = (reset c).pc + 4) ∧
    (∀ c : MIPSR4300i, (step c).next_pc = (step c).pc + 4) :=
  ⟨fun _ => rfl, fun _ => rfl, fun _ => rfl⟩

/-- C6: address translation is a pure function of the address value:
on the 32-bit address domain, every address in the cached window
`0x80000000`–`0x9FFFFFFF` or the uncached window `0xA0000000`–`0xBFFFFFFF`
maps to the offset obtained by masking with `0x1FFFFFFF`, every other
address maps to itself, and the five sample points of the spec hold. -/
theorem C6_translation (a : Nat) (h : a < 2 ^ 32) :
    ((0x80000000 ≤ a ∧ a ≤ 0x9FFFFFFF) ∨ (0xA0000000 ≤ a ∧ a ≤ 0xBFFFFFFF) →
      virtual_to_physical a = a &&& 0x1FFFFFFF) ∧
    (¬ ((0x80000000 ≤ a ∧ a ≤ 0x9FFFFFFF) ∨ (0xA0000000 ≤ a ∧ a ≤ 0xBFFFFFFF)) →
      virtual_to_physical a = a) ∧
    virtual_to_physical 0x80000000 = 0x00000000 ∧
    virtual_to_physical 0xA0000000 = 0x00000000 ∧
    virtual_to_physical 0x9FFFFFFF = 0x1FFFFFFF ∧
    virtual_to_physical 0xBFFFFFFF = 0x1FFFFFFF ∧
    virtual_to_physical 0x00001234 = 0x00001234 := by
  refine ⟨?_, ?_, by decide, by decide, by decide, by decide, by decide⟩
  · intro hw
    simp only [virtual_to_physical]
    rw [mask32, Nat.mod_eq_of_lt h, if_pos hw]
  · intro hw
    simp only [virtual_to_physical]
    rw [mask32, Nat.mod_eq_of_lt h, if_neg hw]

/-- C6 witness: the theorem applied at the concrete address `0x1234`. -/
theorem C6_translation_witness :
    virtual_to_physical 0x00001234 = 0x00001234 :=
  (C6_translation 0x00001234 (by decide)).2.2.2.2.2.2

/-- C1: for 32-bit unsigned register operands `a` and `b`, SPECIAL
function `0x20`/`0x21` (ADD/ADDU) writes `(a + b) mod 2 ^ 64` to
`gpr[rd]` and function `0x22`/`0x23` (SUB/SUBU) writes
`(a - b) mod 2 ^ 64`, where 64 is the register width configured by the
source's `0xFFFFFFFFFFFFFFFF` masks; both are total functions of the
state, so no overflow trap or error is ever raised. -/
theorem C1_wrapping_add_sub (c : MIPSR4300i) (rs rt rd sh a b : Nat)
    (hrd : rd < c.gpr.length) (ha : g c rs = a) (hb : g c rt = b)
    (ha32 : a < 2 ^ 32) (hb32 : b < 2 ^ 32) :
    (∀ fn, fn = 0x20 ∨ fn = 0x21 →
      g (special c rs rt rd sh fn) rd = (a + b) % 2 ^ 64) ∧
    (∀ fn, fn = 0x22 ∨ fn = 0x23 →
      (g (special c rs rt rd sh fn) rd : Int) = ((a : Int) - (b : Int)) % 2 ^ 64) := by
  constructor
  · rintro fn (rfl | rfl) <;>
    · simp only [special]
      norm_num
      rw [g_setg_self _ _ _ hrd, ha, hb, mask64]
      norm_num
  · rintro fn (rfl | rfl) <;>
    · simp only [special]
      norm_num
      rw [g_setg_self _ _ _ hrd, ha, hb]
      unfold sub64
      rw [Int.toNat_of_nonneg (Int.emod_nonneg _ (by norm_num))]
      norm_num

/-- C1 witness: ADD at `rs = 1`, `rt = 2`, `rd = 3` on the concrete
state with `gpr[1] = 100`, `gpr[2] = 200`. -/
theorem C1_wrapping_add_sub_witness :
    g (special cpuMult 1 2 3 0 0x20) 3 = (100 + 200) % 2 ^ 64 :=
  (C1_wrapping_add_sub cpuMult 1 2 3 0 100 200 (by decide) (by decide)
    (by decide) (by decide) (by decide)).1 0x20 (Or.inl rfl)

/-- C7: MULT (SPECIAL function `0x18`) on 32-bit operands sets LO to
the low 32 bits of the product and HI to the high 32 bits; MFLO
(function `0x12`) copies LO into `gpr[rd]`; and the harness scenario —
`gpr[1] = 100`, `gpr[2] = 200`, then the encoded words `MULT r1,r2`
(`0x00220018`) and `MFLO r3` (`0x00001812`) — leaves `gpr[3] = 20000`. -/
theorem C7_mult_mflo :
    (∀ (c : MIPSR4300i) (rs rt rd sh : Nat),
      g c rs < 2 ^ 32 → g c rt < 2 ^ 32 →
      (special c rs rt rd sh 0x18).lo = g c rs * g c rt % 2 ^ 32 ∧
      (special c rs rt rd sh 0x18).hi = g c rs * g c rt / 2 ^ 32) ∧
    (∀ (c : MIPSR4300i) (rs rt rd sh : Nat), rd < c.gpr.length →
      g (special c rs rt rd sh 0x12) rd = c.lo) ∧
    g (decode_execute (decode_execute cpuMult 0x00220018) 0x00001812) 3 = 20000 := by
  refine ⟨?_, ?_, by decide⟩
  · intro c rs rt rd sh ha hb
    have hlt : g c rs * g c rt < 2 ^ 32 * 2 ^ 32 :=
      Nat.mul_lt_mul_of_lt_of_le (Nat.lt_of_lt_of_le ha (le_refl _))
        (Nat.le_of_lt_succ (Nat.lt_succ_of_lt hb)) (by norm_num)
    constructor
    · simp only [special]
      norm_num
      rw [mask32]
      norm_num
    · simp only [special]
      norm_num
      rw [Nat.shiftRight_eq_div_pow, mask32]
      rw [Nat.mod_eq_of_lt (Nat.div_lt_of_lt_mul hlt)]
      norm_num
  · intro c rs rt rd sh hrd
    simp only [special]
    norm_num
    exact g_setg_self _ _ _ hrd

/-- C7 witness: MULT at `rs = 1`, `rt = 2` on the concrete state with
`gpr[1] = 100`, `gpr[2] = 200`. -/
theorem C7_mult_mflo_witness :
    (special cpuMult 1 2 0 0 0x18).lo = g cpuMult 1 * g cpuMult 2 % 2 ^ 32 :=
  (C7_mult_mflo.1 cpuMult 1 2 0 0 (by decide) (by decide)).1

/-- C4: when the translated offset is out of range (`offset + 4`
exceeds the arena length) `read32` returns 0 and `write32` returns the
memory unchanged, with no fault; for in-range offsets `read32` returns
the four bytes at the offset combined big-endian, a value below
`2 ^ 32` (the byte bound is the `bytearray` cell invariant). -/
theorem C4_memory_bounds (m : N64Memory) (addr v : Nat)
    (hb : ∀ i, m.rdram i < 256) :
    (RDRAM_LEN < virtual_to_physical addr + 4 →
      read32 m addr = 0 ∧ write32 m addr v = m) ∧
    (virtual_to_physical addr + 4 ≤ RDRAM_LEN →
      read32 m addr =
        m.rdram (virtual_to_physical addr) * 2 ^ 24 +
        m.rdram (virtual_to_physical addr + 1) * 2 ^ 16 +
        m.rdram (virtual_to_physical addr + 2) * 2 ^ 8 +
        m.rdram (virtual_to_physical addr + 3) ∧
      read32 m addr < 2 ^ 32) := by
  constructor
  · intro h
    have hc : ¬ virtual_to_physical addr + 3 < RDRAM_LEN := by omega
    constructor
    · simp only [read32]
      rw [if_neg hc]
    · simp only [write32]
      rw [if_neg hc]
  · intro h
    have hc : virtual_to_physical addr + 3 < RDRAM_LEN := by omega
    have heq : read32 m addr =
        m.rdram (virtual_to_physical addr) * 2 ^ 24 +
        m.rdram (virtual_to_physical addr + 1) * 2 ^ 16 +
        m.rdram (virtual_to_physical addr + 2) * 2 ^ 8 +
        m.rdram (virtual_to_physical addr + 3) := by
      simp only [read32]
      rw [if_pos hc]
    refine ⟨heq, ?_⟩
    rw [heq]
    have b0 := hb (virtual_to_physical addr)
    have b1 := hb (virtual_to_physical addr + 1)
    have b2 := hb (virtual_to_physical addr + 2)
    have b3 := hb (virtual_to_physical addr + 3)
    norm_num
    omega

/-- C4 witness: the out-of-range case at identity-translated address
`0x10000000` (beyond the 8 MiB arena) over the all-zero memory. -/
theorem C4_memory_bounds_witness :
    read32 mem0 0x10000000 = 0 ∧ write32 mem0 0x10000000 5 = mem0 :=
  (C4_memory_bounds mem0 0x10000000 5 (fun _ => by norm_num [mem0])).1 (by decide)

/-- C5: for any value and any virtual address whose translated offset
is in bounds, `write32` immediately followed by `read32` on the same
virtual address returns the value reduced modulo `2 ^ 32`. -/
theorem C5_write_read_roundtrip (m : N64Memory) (addr v : Nat)
    (h : virtual_to_physical addr + 4 ≤ RDRAM_LEN) :
    read32 (write32 m addr v) addr = v % 2 ^ 32 := by
  have hc : virtual_to_physical addr + 3 < RDRAM_LEN := by omega
  have h1 : virtual_to_physical addr + 1 ≠ virtual_to_physical addr := by omega
  have h2 : virtual_to_physical addr + 2 ≠ virtual_to_physical addr := by omega
  have h2' : virtual_to_physical addr + 2 ≠ virtual_to_physical addr + 1 := by omega
  have h3 : virtual_to_physical addr + 3 ≠ virtual_to_physical addr := by omega
  have h3' : virtual_to_physical addr + 3 ≠ virtual_to_physical addr + 1 := by omega
  have h3'' : virtual_to_physical addr + 3 ≠ virtual_to_physical addr + 2 := by omega
  simp only [read32, write32]
  rw [if_pos hc, if_pos hc]
  dsimp only
  simp [h1, h2, h2', h3, h3', h3'']
  rw [mask32]
  have hw : v % 2 ^ 32 < 2 ^ 32 := Nat.mod_lt _ (by norm_num)
  set w := v % 2 ^ 32 with hwdef
  omega

/-- C5 witness: the round trip at cached-window address `0x80000000`
with value 123 over the all-zero memory. -/
theorem C5_write_read_roundtrip_witness :
    read32 (write32 mem0 0x80000000 123) 0x80000000 = 123 % 2 ^ 32 :=
  C5_write_read_roundtrip mem0 0x80000000 123 (by decide)

/-- C3 amended: BEQ (opcode `0x04`) sets `next_pc` to
`pc + 4 + (sign-extended imm <<< 2)` exactly when `gpr[rs] = gpr[rt]`,
BNE (opcode `0x05`) exactly when they differ, and otherwise `next_pc`
is left unchanged — but the computed `next_pc` is an unbounded integer,
not truncated to 32 bits (the source never masks it), which is the one
part of the original claim that fails. -/
theorem C3_branch_semantics (c : MIPSR4300i) (ins : Nat) (h0 : g c 0 = 0)
    (hop : (ins >>> 26) &&& 0x3F = 0x04 ∨ (ins >>> 26) &&& 0x3F = 0x05) :
    (decode_execute c ins).next_pc =
      if ((ins >>> 26) &&& 0x3F = 0x04 ∧
            g c ((ins >>> 21) &&& 0x1F) = g c ((ins >>> 16) &&& 0x1F)) ∨
         ((ins >>> 26) &&& 0x3F = 0x05 ∧
            g c ((ins >>> 21) &&& 0x1F) ≠ g c ((ins >>> 16) &&& 0x1F))
      then c.pc + 4 +
        ((if (ins &&& 0xFFFF) &&& 0x8000 ≠ 0
          then (ins &&& 0xFFFF) ||| 0xFFFFFFFFFFFF0000
          else ins &&& 0xFFFF) <<< 2)
      else c.next_pc := by
  have h0' : c.gpr.getD 0 0 = 0 := h0
  obtain hop | hop := hop <;>
  · by_cases hreg : g c ((ins >>> 21) &&& 0x1F) = g c ((ins >>> 16) &&& 0x1F) <;>
    simp [decode_execute, setg, g, set_zero_id _ h0', hop, hreg] at hreg ⊢ <;>
    simp [g, hreg]

/-- C3 witness: a taken BEQ (`r0 = r0`, immediate `0x8000`) from the
boot state: the theorem instantiated at `cpu0` and word `0x10008000`. -/
theorem C3_branch_semantics_witness :
    (decode_execute cpu0 0x10008000).next_pc =
      0xA4000040 + 4 + (0xFFFFFFFFFFFF8000 <<< 2) := by
  have h := C3_branch_semantics cpu0 0x10008000 (by decide) (Or.inl (by decide))
  simpa [cpu0, initCPU] using h

/-- C3 counterexample: the claim also asserts the resulting next-PC is
a 32-bit unsigned value; executing BEQ `0x10008000` (taken, negative
displacement) from the reset state leaves `next_pc` at
`0xA4000044 + 0x3FFFFFFFFFFE0000`, which is not below `2 ^ 32`. -/
theorem C3_branch_counterexample :
    ¬ (decode_execute cpu0 0x10008000).next_pc < 2 ^ 32 := by decide

lemma special_unknown (c : MIPSR4300i) (rs rt rd sh fn : Nat)
    (hfn : fn ∉ knownFns) : special c rs rt rd sh fn = c := by
  simp only [knownFns, List.mem_cons, List.not_mem_nil, or_false] at hfn
  push_neg at hfn
  obtain ⟨f1, f2, f3, f4, f5, f6, f7, f8, f9, f10, f11, f12⟩ := hfn
  simp [special, f1, f2, f3, f4, f5, f6, f7, f8, f9, f10, f11, f12]

lemma decode_execute_unknown (c : MIPSR4300i) (ins : Nat) (h0 : g c 0 = 0)
    (hop : (ins >>> 26) &&& 0x3F ∉ knownOps ∨
           ((ins >>> 26) &&& 0x3F = 0x00 ∧ ins &&& 0x3F ∉ knownFns)) :
    decode_execute c ins = { c with cycles := c.cycles + 1 } := by
  have h0' : c.gpr.getD 0 0 = 0 := h0
  obtain hop | ⟨hop, hfn⟩ := hop
  · simp only [knownOps, List.mem_cons, List.not_mem_nil, or_false] at hop
    push_neg at hop
    obtain ⟨o1, o2, o3, o4, o5, o6, o7, o8, o9, o10, o11, o12⟩ := hop
    simp [decode_execute, setg, g, set_zero_id _ h0',
      o1, o2, o3, o4, o5, o6, o7, o8, o9, o10, o11, o12]
  · have hs : ∀ x : MIPSR4300i,
        special x ((ins >>> 21) &&& 0x1F) ((ins >>> 16) &&& 0x1F)
          ((ins >>> 11) &&& 0x1F) ((ins >>> 6) &&& 0x1F) (ins &&& 0x3F) = x :=
      fun x => special_unknown x _ _ _ _ _ hfn
    simp [decode_execute, setg, g, set_zero_id _ h0', hop, hs]

/-- C8 amended: an instruction whose primary opcode is outside the
dispatch table, or whose opcode is SPECIAL (`0x00`) with a function
code outside the secondary table, executes as a non-fatal no-op:
registers, HI/LO and memory are unchanged, the cycle counter ticks,
and the step advances to the pending next program counter exactly as a
valid instruction would.  The source, however, provides no distinct
return status for this case (`decode_execute` returns nothing), so the
distinguishability clause of the original claim does not hold. -/
theorem C8_unknown_noop (c : MIPSR4300i) (h0 : g c 0 = 0)
    (hop : ((fetch c >>> 26) &&& 0x3F) ∉ knownOps ∨
           (((fetch c >>> 26) &&& 0x3F) = 0x00 ∧ (fetch c &&& 0x3F) ∉ knownFns)) :
    (step c).gpr = c.gpr ∧ (step c).hi = c.hi ∧ (step c).lo = c.lo ∧
    (step c).memory = c.memory ∧ (step c).pc = c.next_pc ∧
    (step c).next_pc = c.next_pc + 4 ∧ (step c).cycles = c.cycles + 1 := by
  have hd := decode_execute_unknown c (fetch c) h0 hop
  simp [step, hd]

/-- A CPU whose PC points at an in-range word holding `0xFC000000`
(primary opcode `0x3F`, absent from the dispatch table). -/
def cpuUnknown : MIPSR4300i :=
  { cpu0 with memory := write32 mem0 0x80000100 0xFC000000, pc := 0x80000100 }

/-- C8 witness: the no-op theorem applied to a state about to execute
the unknown-opcode word `0xFC000000`. -/
theorem C8_unknown_noop_witness :
    (step cpuUnknown).gpr = cpuUnknown.gpr ∧
    (step cpuUnknown).hi = cpuUnknown.hi ∧
    (step cpuUnknown).lo = cpuUnknown.lo ∧
    (step cpuUnknown).memory = cpuUnknown.memory ∧
    (step cpuUnknown).pc = cpuUnknown.next_pc ∧
    (step cpuUnknown).next_pc = cpuUnknown.next_pc + 4 ∧
    (step cpuUnknown).cycles = cpuUnknown.cycles + 1 :=
  C8_unknown_noop cpuUnknown (by decide) (Or.inl (by decide))

/-- C8 counterexample: the execution outcome of the unknown-opcode
word `0xFC000000` is byte-for-byte identical to that of the valid
no-op `0x00000000` (SLL r0,r0,0), so no return status distinguishes
them: `decode_execute` produces the same state (and, like Python's
`None`-returning method, no other output) in both cases. -/
theorem C8_no_distinct_status :
    decode_execute cpu0 0xFC000000 = decode_execute cpu0 0x00000000 := rfl

lemma getE_eq (l : List Nat) (i : Nat) (h : i < l.length) :
    getE l i = some (l.getD i 0) := by
  simp [getE, List.getElem?_eq_getElem h, List.getD_eq_getElem?_getD]

lemma setE_eq (l : List Nat) (i v : Nat) (h : i < l.length) :
    setE l i v = some (l.set i v) := by
  simp [setE, h]

set_option maxHeartbeats 1000000 in
lemma special_gpr_length (c : MIPSR4300i) (rs rt rd sh fn : Nat) :
    (special c rs rt rd sh fn).gpr.length = c.gpr.length := by
  simp only [special]
  split_ifs <;> simp [setg]

set_option maxHeartbeats 1000000 in
lemma specialE_eq (c : MIPSR4300i) (rs rt rd sh fn : Nat)
    (hl : c.gpr.length = 32) (hrs : rs < 32) (hrt : rt < 32) (hrd : rd < 32) :
    specialE c rs rt rd sh fn = some (special c rs rt rd sh fn) := by
  have hrs' : rs < c.gpr.length := by omega
  have hrt' : rt < c.gpr.length := by omega
  have hrd' : rd < c.gpr.length := by omega
  have grs := getE_eq c.gpr rs hrs'
  have grt := getE_eq c.gpr rt hrt'
  have srd : ∀ v, setE c.gpr rd v = some (c.gpr.set rd v) :=
    fun v => setE_eq _ _ _ hrd'
  have grs2 : ∀ v, getE (c.gpr.set rd v) rs =
      some ((c.gpr.set rd v).getD rs 0) :=
    fun v => getE_eq _ _ (by rw [List.length_set]; exact hrs')
  by_cases f0 : fn = 0x00
  · simp [specialE, special, f0, grt, srd, setg, g]
  by_cases f2 : fn = 0x02
  · simp [specialE, special, f0, f2, grt, srd, setg, g]
  by_cases f8 : fn = 0x08
  · simp [specialE, special, f0, f2, f8, grs, setg, g]
  by_cases f9 : fn = 0x09
  · simp [specialE, special, f0, f2, f8, f9, grs2, srd, setg, g]
  by_cases f12 : fn = 0x12
  · simp [specialE, special, f0, f2, f8, f9, f12, srd, setg, g]
  by_cases f18 : fn = 0x18
  · simp [specialE, special, f0, f2, f8, f9, f12, f18, grs, grt, setg, g]
  by_cases f20 : fn = 0x20 ∨ fn = 0x21
  · simp [specialE, special, f0, f2, f8, f9, f12, f18, f20, grs, grt, srd, setg, g]
  by_cases f22 : fn = 0x22 ∨ fn = 0x23
  · simp [specialE, special, f0, f2, f8, f9, f12, f18, f20, f22, grs, grt, srd,
      setg, g]
  by_cases f24 : fn = 0x24
  · simp [specialE, special, f0, f2, f8, f9, f12, f18, f20, f22, f24, grs, grt,
      srd, setg, g]
  by_cases f25 : fn = 0x25
  · simp [specialE, special, f0, f2, f8, f9, f12, f18, f20, f22, f24, f25, grs,
      grt, srd, setg, g]
  · simp [specialE, special, f0, f2, f8, f9, f12, f18, f20, f22, f24, f25]

set_option maxHeartbeats 4000000 in
lemma decode_executeE_eq (c : MIPSR4300i) (ins : Nat) (hl : c.gpr.length = 32) :
    decode_executeE c ins = some (decode_execute c ins) := by
  have hrs : (ins >>> 21) &&& 0x1F < 32 :=
    lt_of_le_of_lt Nat.and_le_right (by norm_num)
  have hrt : (ins >>> 16) &&& 0x1F < 32 :=
    lt_of_le_of_lt Nat.and_le_right (by norm_num)
  have hrd : (ins >>> 11) &&& 0x1F < 32 :=
    lt_of_le_of_lt Nat.and_le_right (by norm_num)
  have h31 : (31 : Nat) < 32 := by norm_num
  have h0 : (0 : Nat) < 32 := by norm_num
  by_cases p0 : (ins >>> 26) &&& 0x3F = 0x00
  · simp [decode_executeE, decode_execute, p0, getE_eq, setE_eq, specialE_eq,
      special_gpr_length, hl, hrs, hrt, hrd, h31, h0, setg, g]
  by_cases p2 : (ins >>> 26) &&& 0x3F = 0x02
  · simp [decode_executeE, decode_execute, p0, p2, getE_eq, setE_eq, hl, hrs,
      hrt, hrd, h31, h0, setg, g]
  by_cases p3 : (ins >>> 26) &&& 0x3F = 0x03
  · simp [decode_executeE, decode_execute, p0, p2, p3, getE_eq, setE_eq, hl, hrs,
      hrt, hrd, h31, h0, setg, g]
  by_cases p4 : (ins >>> 26) &&& 0x3F = 0x04
  · simp [decode_executeE, decode_execute, p0, p2, p3, p4, getE_eq, setE_eq, hl,
      hrs, hrt, hrd, h31, h0, setg, g]
    split <;> simp [setE_eq, hl, h0]
  by_cases p5 : (ins >>> 26) &&& 0x3F = 0x05
  · simp [decode_executeE, decode_execute, p0, p2, p3, p4, p5, getE_eq, setE_eq,
      hl, hrs, hrt, hrd, h31, h0, setg, g]
    split <;> simp [setE_eq, hl, h0]
  by_cases p8 : (ins >>> 26) &&& 0x3F = 0x08 ∨ (ins >>> 26) &&& 0x3F = 0x09
  · simp [decode_executeE, decode_execute, p0, p2, p3, p4, p5, p8, getE_eq,
      setE_eq, hl, hrs, hrt, hrd, h31, h0, setg, g]
  by_cases pC : (ins >>> 26) &&& 0x3F = 0x0C
  · simp [decode_executeE, decode_execute, p0, p2, p3, p4, p5, p8, pC, getE_eq,
      setE_eq, hl, hrs, hrt, hrd, h31, h0, setg, g]
  by_cases pD : (ins >>> 26) &&& 0x3F = 0x0D
  · simp [decode_executeE, decode_execute, p0, p2, p3, p4, p5, p8, pC, pD,
      getE_eq, setE_eq, hl, hrs, hrt, hrd, h31, h0, setg, g]
  by_cases pF : (ins >>> 26) &&& 0x3F = 0x0F
  · simp [decode_executeE, decode_execute, p0, p2, p3, p4, p5, p8, pC, pD, pF,
      getE_eq, setE_eq, hl, hrs, hrt, hrd, h31, h0, setg, g]
  by_cases pL : (ins >>> 26) &&& 0x3F = 0x23
  · simp [decode_executeE, decode_execute, p0, p2, p3, p4, p5, p8, pC, pD, pF,
      pL, getE_eq, setE_eq, hl, hrs, hrt, hrd, h31, h0, setg, g]
  by_cases pS : (ins >>> 26) &&& 0x3F = 0x2B
  · simp [decode_executeE, decode_execute, p0, p2, p3, p4, p5, p8, pC, pD, pF,
      pL, pS, getE_eq, setE_eq, hl, hrs, hrt, hrd, h31, h0, setg, g]
  · simp [decode_executeE, decode_execute, p0, p2, p3, p4, p5, p8, pC, pD, pF,
      pL, pS, getE_eq, setE_eq, hl, hrs, hrt, hrd, h31, h0, setg, g]

/-- C9: `step` runs to completion on every state with the standard
32-entry register file, for every fetched instruction word: the
fallible model `stepE`/`decode_executeE` — in which each register-file
access that could raise `IndexError` in CPython returns `none`, while
out-of-range memory accesses and unknown opcodes are absorbed inside
`read32`/`write32`/the dispatch fallthrough — always returns `some`,
agreeing with the total semantics; no instruction-level condition
escapes as an error. -/
theorem C9_step_total (c : MIPSR4300i) (hl : c.gpr.length = 32) :
    (∀ ins, decode_executeE c ins = some (decode_execute c ins)) ∧
    stepE c = some (step c) := by
  refine ⟨fun ins => decode_executeE_eq c ins hl, ?_⟩
  simp [stepE, step, decode_executeE_eq c (fetch c) hl]

/-- C9 witness: the totality theorem applied to the freshly
constructed CPU. -/
theorem C9_step_total_witness : stepE cpu0 = some (step cpu0) :=
  (C9_step_total cpu0 (by simp [cpu0, initCPU])).2

end Emu64
